import Mathlib

/-!
Shallow embedding of the filter-and-aggregate pipeline of
`src/streamlit_app.py` (Frilantika Airlines Flights Dashboard).

Categorical cell values (airline, source/destination city, class, stops,
departure/arrival time) are opaque codes modelled by natural numbers,
ordered as pandas orders the underlying strings.  Prices and durations are
rationals, `days_left` is an integer.  A pandas DataFrame of flight rows is
modelled as a `List FlightRecord` in row order; the raw CSV frame seen by
the loader is modelled separately by `DataFrame` below.
-/

/-- One row of the loaded flight table: the columns `streamlit_app.py`
uses after loading (the `class` column is named `cls` here because
`class` is a Lean keyword). -/
structure FlightRecord where
  airline : ℕ
  sourceCity : ℕ
  destinationCity : ℕ
  departureTime : ℕ
  stops : ℕ
  arrivalTime : ℕ
  cls : ℕ
  duration : ℚ
  daysLeft : ℤ
  price : ℚ
deriving DecidableEq

/-- Distinct values of a list keeping the first occurrence of each, in
first-encountered order: the behaviour of `pandas.Series.unique`. -/
def uniqueFirst {α : Type} [DecidableEq α] : List α → List α
  | [] => []
  | x :: xs => x :: (uniqueFirst xs).filter fun y => decide (y ≠ x)

/-- Source lines 44-51, `create_filter`, in its default widget state: the
returned selection is `sorted(df[column_name].unique())`, i.e. every
distinct value of the column, in ascending order. -/
def create_filter (t : List FlightRecord) (col : FlightRecord → ℕ) : List ℕ :=
  List.insertionSort (· ≤ ·) (uniqueFirst (t.map col))

/-- Source lines 61-67: a row survives iff each of its five categorical
values is a member of the corresponding selection list (`Series.isin`,
one conjunct per column, combined with `&`).  The source filter has no
price dimension. -/
def df_filtered (t : List FlightRecord) (sa ss sd sc sst : List ℕ) :
    List FlightRecord :=
  t.filter fun r =>
    decide (r.airline ∈ sa) && decide (r.sourceCity ∈ ss) &&
    decide (r.destinationCity ∈ sd) && decide (r.cls ∈ sc) &&
    decide (r.stops ∈ sst)

/-- Arithmetic mean of a list of rationals (`Series.mean`); the callers
guard against the empty list, on which this returns `0 / 0 = 0`. -/
def meanQ (l : List ℚ) : ℚ := l.sum / (l.length : ℚ)

/-- `Series.max`, as a left fold of `max` over the list (0 on an empty
list, which the caller's emptiness guard excludes). -/
def listMax : List ℚ → ℚ
  | [] => 0
  | x :: xs => xs.foldl max x

/-- `Series.min`, as a left fold of `min` over the list. -/
def listMin : List ℚ → ℚ
  | [] => 0
  | x :: xs => xs.foldl min x

/-- The four scalar metrics of source lines 88-91. -/
structure Metrics where
  avgPrice : ℚ
  avgDuration : ℚ
  count : ℕ
  priceRange : ℚ
deriving DecidableEq

/-- The aggregation step of source lines 78-91: the `df_filtered.empty`
guard of lines 78-80 (the spec's `EmptyInputError`, modelled as `none`)
followed by the four scalar metrics of lines 88-91. -/
def summarize (t : List FlightRecord) : Option Metrics :=
  if t.isEmpty then none
  else some
    { avgPrice := meanQ (t.map fun r => r.price),
      avgDuration := meanQ (t.map fun r => r.duration),
      count := t.length,
      priceRange :=
        listMax (t.map fun r => r.price) - listMin (t.map fun r => r.price) }

/-- Rounding to `n` decimal places, as Python numeric string formatting
rounds a value for display. -/
def roundTo (n : ℕ) (q : ℚ) : ℚ := ((round (q * 10 ^ n) : ℤ) : ℚ) / 10 ^ n

/-- Source line 88. -/
def avg_price (t : List FlightRecord) : ℚ := meanQ (t.map fun r => r.price)

/-- Source line 89. -/
def avg_duration (t : List FlightRecord) : ℚ :=
  meanQ (t.map fun r => r.duration)

/-- Source line 90: `len(df_filtered)`. -/
def unique_flights (t : List FlightRecord) : ℕ := t.length

/-- Source line 91: `df_filtered['Price'].max() - df_filtered['Price'].min()`. -/
def price_range (t : List FlightRecord) : ℚ :=
  listMax (t.map fun r => r.price) - listMin (t.map fun r => r.price)

/-- The KPI row of source lines 93-96: `avg_price` and `avg_duration` are
displayed with format `.2f` (two decimal places), the row count exactly
(`:,` only inserts thousands separators), and `price_range` with format
`,.0f` (zero decimal places). -/
def displayedKPIs (t : List FlightRecord) : ℚ × ℚ × ℕ × ℚ :=
  (roundTo 2 (avg_price t), roundTo 2 (avg_duration t), unique_flights t,
    roundTo 0 (price_range t))

/-- `df.groupby(key)[val].mean()` with pandas' default `sort=True`: the
group keys are the distinct values of `key`, listed in ascending key
order, each paired with the mean of `val` over its group. -/
def groupMean {κ : Type} [LinearOrder κ] (t : List FlightRecord)
    (key : FlightRecord → κ) (val : FlightRecord → ℚ) : List (κ × ℚ) :=
  (List.insertionSort (· ≤ ·) (uniqueFirst (t.map key))).map fun k =>
    (k, meanQ ((t.filter fun r => decide (key r = k)).map val))

/-- The order in which source line 131, `sort_values(by='Price',
ascending=False)`, leaves the groupby output of line 130: the groupby
emits one entry per airline in ascending key order, so a descending sort
on mean price arranges the entries by mean descending with ties left in
ascending key order. -/
def priceDescKeyAsc (x y : ℕ × ℚ) : Prop :=
  y.2 < x.2 ∨ (x.2 = y.2 ∧ x.1 ≤ y.1)

instance : DecidableRel priceDescKeyAsc := fun x y => by
  unfold priceDescKeyAsc; infer_instance

instance : IsTotal (ℕ × ℚ) priceDescKeyAsc where
  total x y := by
    rcases lt_trichotomy x.2 y.2 with h | h | h
    · exact Or.inr (Or.inl h)
    · rcases le_total x.1 y.1 with h1 | h1
      · exact Or.inl (Or.inr ⟨h, h1⟩)
      · exact Or.inr (Or.inr ⟨h.symm, h1⟩)
    · exact Or.inl (Or.inl h)

instance : IsTrans (ℕ × ℚ) priceDescKeyAsc where
  trans a b c hab hbc := by
    rcases hab with h1 | ⟨e1, k1⟩ <;> rcases hbc with h2 | ⟨e2, k2⟩
    · exact Or.inl (lt_trans h2 h1)
    · exact Or.inl (e2 ▸ h1)
    · exact Or.inl (e1 ▸ h2)
    · exact Or.inr ⟨e1.trans e2, k1.trans k2⟩

/-- Source lines 130-131: mean price per airline, sorted by mean price
descending (see `priceDescKeyAsc` for the tie order this leaves). -/
def airline_avg_price (t : List FlightRecord) : List (ℕ × ℚ) :=
  List.insertionSort priceDescKeyAsc
    (groupMean t (fun r => r.airline) fun r => r.price)

/-- Source line 157: mean price per days-left value; pandas groupby emits
the keys in ascending numeric order. -/
def price_vs_days (t : List FlightRecord) : List (ℤ × ℚ) :=
  groupMean t (fun r => r.daysLeft) fun r => r.price

/-- Modelled from the spec: the price dimension of the Filter Engine
("retain rows where price lies within the inclusive numeric range
[min, max] given in criteria").  This dimension exists only in the
repository's second dashboard variant, which is not under `src/`. -/
def filterPrice (t : List FlightRecord) (lo hi : ℚ) : List FlightRecord :=
  t.filter fun r => decide (lo ≤ r.price) && decide (r.price ≤ hi)

/-- A raw CSV cell as `pandas.read_csv` produces it: a number, a
non-numeric string, or a missing value (NaN). -/
inductive Cell where
  | num (q : ℚ)
  | str (s : String)
  | na
deriving DecidableEq

/-- A raw pandas DataFrame: the column names and the rows, each row a
list of cells aligned with the column names. -/
structure DataFrame where
  cols : List String
  rows : List (List Cell)
deriving DecidableEq

/-- `df.drop(columns=names, errors='ignore')`. -/
def dropColumns (df : DataFrame) (names : List String) : DataFrame :=
  { cols := df.cols.filter fun c => decide (c ∉ names),
    rows := df.rows.map fun r =>
      ((df.cols.zip r).filter fun p => decide (p.1 ∉ names)).map Prod.snd }

/-- One pass of `.str.replace('_', ' ').str.title()` over the characters
of a column name: underscores become spaces and the first letter of each
word is upper-cased, the following letters lower-cased. -/
def titleAux : Bool → List Char → List Char
  | _, [] => []
  | atStart, c :: cs =>
    if c = '_' ∨ c = ' ' then ' ' :: titleAux true cs
    else (if atStart then c.toUpper else c.toLower) :: titleAux false cs

/-- Source line 25: `df.columns.str.replace('_', ' ').str.title()`
applied to one column name. -/
def titleWords (s : String) : String := String.mk (titleAux true s.data)

/-- `pd.to_numeric(cell, errors='coerce')`: numbers survive, everything
else becomes NaN. -/
def toNumericCell : Cell → Cell
  | Cell.num q => Cell.num q
  | _ => Cell.na

/-- `df[c] = pd.to_numeric(df[c], errors='coerce')` for column `c`. -/
def coerceColumn (df : DataFrame) (c : String) : DataFrame :=
  { df with rows := df.rows.map fun r =>
      (df.cols.zip r).map fun p =>
        if p.1 = c then toNumericCell p.2 else p.2 }

/-- `df.dropna()`: drop every row containing a missing value. -/
def dropna (df : DataFrame) : DataFrame :=
  { df with rows := df.rows.filter fun r => decide (Cell.na ∉ r) }

/-- Source lines 16-32, `load_data`, step by step.  Line 22 of the source
calls `df.drop(columns=['index', 'flight'], errors='ignore')` without
assigning the result, so the drop has no effect on the frame that is
returned; and the coercion loop of lines 28-30 tests the lower-case
names `'price'`, `'duration'`, `'days left'` for membership in the
already Title-cased column index, so it never fires. -/
def load_data (df : DataFrame) : DataFrame :=
  let _dropped := dropColumns df ["index", "flight"]
  let df1 : DataFrame := { df with cols := df.cols.map titleWords }
  let df2 : DataFrame :=
    (["price", "duration", "days left"]).foldl
      (fun d c => if c ∈ d.cols then coerceColumn d c else d) df1
  dropna df2

/-- A flight row with the given airline code, price, duration and days
left; the remaining categorical codes are 0. -/
def mkRow (a : ℕ) (p dur : ℚ) (d : ℤ) : FlightRecord :=
  { airline := a, sourceCity := 0, destinationCity := 0, departureTime := 0,
    stops := 0, arrivalTime := 0, cls := 0, duration := dur, daysLeft := d,
    price := p }

/-- Row 2 of the four-row scenario table of spec §8 (IndiGo = 1). -/
def scenarioRow2 : FlightRecord := mkRow 1 7000 3 5

/-- Row 3 of the four-row scenario table of spec §8 (Vistara = 2). -/
def scenarioRow3 : FlightRecord := mkRow 2 9000 2 20

/-- The four-row scenario table of spec §8: airline codes IndiGo = 1 and
Vistara = 2, prices 5000/7000/9000/11000. -/
def scenarioT : List FlightRecord :=
  [mkRow 1 5000 2.5 10, scenarioRow2, scenarioRow3, mkRow 2 11000 4 1]

/-- Two airlines (codes 2 then 1 in row order) with the identical mean
price 5000: the tie table for the airline-ranking order. -/
def tieT : List FlightRecord := [mkRow 2 5000 1 1, mkRow 1 5000 1 1]

/-- Three rows with prices 5000, 5001, 5001: mean 15002/3, whose
two-decimal display differs from its one-decimal rounding. -/
def thirdT : List FlightRecord :=
  [mkRow 1 5000 1 1, mkRow 1 5001 1 1, mkRow 1 5001 1 1]

/-- A one-row raw CSV frame whose `price` entry is not numeric and which
still has its `index` and `flight` columns. -/
def rawCSV : DataFrame :=
  { cols := ["index", "flight", "price"],
    rows := [[Cell.num 0, Cell.str ("AB123"), Cell.str ("abc")]] }

lemma mem_uniqueFirst {α : Type} [DecidableEq α] {a : α} {l : List α} :
    a ∈ uniqueFirst l ↔ a ∈ l := by
  induction l with
  | nil => simp [uniqueFirst]
  | cons x xs ih =>
    by_cases h : a = x <;> simp [uniqueFirst, List.mem_filter, ih, h]

lemma nodup_uniqueFirst {α : Type} [DecidableEq α] (l : List α) :
    (uniqueFirst l).Nodup := by
  induction l with
  | nil => simp [uniqueFirst]
  | cons x xs ih =>
    refine List.Nodup.cons ?_ (ih.filter _)
    intro hmem
    have h := (List.mem_filter.mp hmem).2
    simp at h

lemma foldl_max_spec (xs : List ℚ) : ∀ x : ℚ,
    (xs.foldl max x = x ∨ xs.foldl max x ∈ xs) ∧
    x ≤ xs.foldl max x ∧ ∀ y ∈ xs, y ≤ xs.foldl max x := by
  induction xs with
  | nil => intro x; simp
  | cons z zs ih =>
    intro x
    obtain ⟨hmem, hle, hbound⟩ := ih (max x z)
    rw [List.foldl_cons]
    refine ⟨?_, ?_, ?_⟩
    · rcases hmem with h | h
      · rcases max_choice x z with hc | hc
        · exact Or.inl (h.trans hc)
        · exact Or.inr (by rw [h, hc]; exact List.mem_cons_self _ _)
      · exact Or.inr (List.mem_cons_of_mem _ h)
    · exact (le_max_left x z).trans hle
    · intro y hy
      rcases List.mem_cons.mp hy with rfl | hy2
      · exact (le_max_right x y).trans hle
      · exact hbound y hy2

lemma foldl_min_spec (xs : List ℚ) : ∀ x : ℚ,
    (xs.foldl min x = x ∨ xs.foldl min x ∈ xs) ∧
    xs.foldl min x ≤ x ∧ ∀ y ∈ xs, xs.foldl min x ≤ y := by
  induction xs with
  | nil => intro x; simp
  | cons z zs ih =>
    intro x
    obtain ⟨hmem, hle, hbound⟩ := ih (min x z)
    rw [List.foldl_cons]
    refine ⟨?_, ?_, ?_⟩
    · rcases hmem with h | h
      · rcases min_choice x z with hc | hc
        · exact Or.inl (h.trans hc)
        · exact Or.inr (by rw [h, hc]; exact List.mem_cons_self _ _)
      · exact Or.inr (List.mem_cons_of_mem _ h)
    · exact hle.trans (min_le_left x z)
    · intro y hy
      rcases List.mem_cons.mp hy with rfl | hy2
      · exact hle.trans (min_le_right x y)
      · exact hbound y hy2

lemma listMax_spec {t : List ℚ} (h : t ≠ []) :
    listMax t ∈ t ∧ ∀ y ∈ t, y ≤ listMax t := by
  cases t with
  | nil => exact absurd rfl h
  | cons x xs =>
    obtain ⟨hmem, hle, hbound⟩ := foldl_max_spec xs x
    show xs.foldl max x ∈ x :: xs ∧ ∀ y ∈ x :: xs, y ≤ xs.foldl max x
    refine ⟨?_, fun y hy => ?_⟩
    · rcases hmem with h2 | h2
      · rw [h2]; exact List.mem_cons_self _ _
      · exact List.mem_cons_of_mem _ h2
    · rcases List.mem_cons.mp hy with rfl | hy2
      · exact hle
      · exact hbound y hy2

lemma listMin_spec {t : List ℚ} (h : t ≠ []) :
    listMin t ∈ t ∧ ∀ y ∈ t, listMin t ≤ y := by
  cases t with
  | nil => exact absurd rfl h
  | cons x xs =>
    obtain ⟨hmem, hle, hbound⟩ := foldl_min_spec xs x
    show xs.foldl min x ∈ x :: xs ∧ ∀ y ∈ x :: xs, xs.foldl min x ≤ y
    refine ⟨?_, fun y hy => ?_⟩
    · rcases hmem with h2 | h2
      · rw [h2]; exact List.mem_cons_self _ _
      · exact List.mem_cons_of_mem _ h2
    · rcases List.mem_cons.mp hy with rfl | hy2
      · exact hle
      · exact hbound y hy2

lemma filter_idem {α : Type} (p : α → Bool) (l : List α) :
    (l.filter p).filter p = l.filter p := by
  induction l with
  | nil => rfl
  | cons x xs ih =>
    by_cases h : p x <;> simp [List.filter_cons, h, ih]

lemma map_fst_pair {κ β : Type} (f : κ → β) (l : List κ) :
    (l.map fun k => (k, f k)).map Prod.fst = l := by
  induction l with
  | nil => rfl
  | cons x xs ih => simp [ih]

lemma roundTo_two_close (q : ℚ) : |roundTo 2 q - q| ≤ 1 / 200 := by
  have h := abs_sub_round (q * 10 ^ 2)
  have h2 : roundTo 2 q - q =
      (((round (q * 10 ^ 2) : ℤ) : ℚ) - q * 10 ^ 2) / 10 ^ 2 := by
    rw [roundTo]; ring
  rw [abs_sub_comm] at h
  rw [h2, abs_div]
  have hp : |((10 : ℚ) ^ 2)| = 100 := by norm_num
  rw [hp, div_le_iff₀ (by norm_num : (0 : ℚ) < 100)]
  calc |((round (q * 10 ^ 2) : ℤ) : ℚ) - q * 10 ^ 2| ≤ 1 / 2 := h
    _ ≤ 1 / 200 * 100 := by norm_num

/-- Claim C1, counterexample: on the source filter, all-empty categorical
selections do not return the table unchanged; applied to the non-empty
scenario table they return the empty table. -/
theorem C1_counterexample :
    df_filtered scenarioT [] [] [] [] [] = [] ∧ scenarioT ≠ [] :=
  ⟨by decide, by decide⟩

/-- Claim C1, amended: in the source filter a categorical dimension with
an empty selection set excludes every row rather than passing through:
filtering any table with all-empty categorical selections returns the
empty table. -/
theorem C1_empty_selections_return_empty (t : List FlightRecord) :
    df_filtered t [] [] [] [] [] = [] := by
  simp [df_filtered]

/-- Claim C2 (price dimension modelled from the spec): the price filter
retains exactly the rows whose price lies in the inclusive range
[lo, hi], and on the four-row scenario table the range [6000, 10000]
keeps exactly the rows priced 7000 and 9000, in order. -/
theorem C2_price_range_filter :
    (∀ (t : List FlightRecord) (lo hi : ℚ) (r : FlightRecord),
        r ∈ filterPrice t lo hi ↔ r ∈ t ∧ lo ≤ r.price ∧ r.price ≤ hi) ∧
    filterPrice scenarioT 6000 10000 = [scenarioRow2, scenarioRow3] := by
  constructor
  · intro t lo hi r
    simp [filterPrice, List.mem_filter, and_assoc]
  · decide

/-- Claim C3: `summarize` signals the empty-input condition (the spec's
EmptyInputError, the source's lines 78-80 guard, modelled as `none`) on a
zero-row table, and on every non-empty table it succeeds with a row-count
metric equal to the input length. -/
theorem C3_summarize_empty_guard_and_count :
    summarize [] = none ∧
    ∀ t : List FlightRecord, t ≠ [] →
      ∃ m, summarize t = some m ∧ m.count = t.length := by
  refine ⟨rfl, fun t ht => ?_⟩
  cases t with
  | nil => exact absurd rfl ht
  | cons x xs => exact ⟨_, rfl, rfl⟩

theorem C3_witness :
    summarize [] = none ∧
    ∃ m, summarize scenarioT = some m ∧ m.count = scenarioT.length :=
  ⟨C3_summarize_empty_guard_and_count.1,
    C3_summarize_empty_guard_and_count.2 scenarioT (by decide)⟩

/-- Claim C4: the filter output is a sublist of the input table — every
output row is a row of the input with equal field values, no row is
synthesized, and the surviving rows keep the input's relative order. -/
theorem C4_filter_is_stable_subset (t : List FlightRecord)
    (sa ss sd sc sst : List ℕ) :
    List.Sublist (df_filtered t sa ss sd sc sst) t :=
  List.filter_sublist t

/-- Claim C5: filtering is idempotent — applying the same criteria to an
already filtered table changes nothing. -/
theorem C5_filter_idempotent (t : List FlightRecord)
    (sa ss sd sc sst : List ℕ) :
    df_filtered (df_filtered t sa ss sd sc sst) sa ss sd sc sst =
      df_filtered t sa ss sd sc sst :=
  filter_idem _ t

/-- Claim C6, counterexample: two airlines (codes 2 then 1 in row order)
share the identical mean price 5000, the first-encountered order of the
airlines is [2, 1], yet the ranking lists their keys as [1, 2]: the tie
is not resolved by first-encountered order. -/
theorem C6_counterexample :
    groupMean tieT (fun r => r.airline) (fun r => r.price) =
        [(1, 5000), (2, 5000)] ∧
    uniqueFirst (tieT.map fun r => r.airline) = [2, 1] ∧
    (airline_avg_price tieT).map Prod.fst ≠
      uniqueFirst (tieT.map fun r => r.airline) := by
  have h1 : groupMean tieT (fun r => r.airline) (fun r => r.price) =
      [(1, 5000), (2, 5000)] := by
    norm_num [groupMean, tieT, mkRow, uniqueFirst, meanQ]
  have h2 : airline_avg_price tieT = [(1, 5000), (2, 5000)] := by
    norm_num [airline_avg_price, groupMean, tieT, mkRow, uniqueFirst, meanQ,
      List.insertionSort, List.orderedInsert, priceDescKeyAsc]
  refine ⟨h1, by decide, ?_⟩
  rw [h2]
  decide

/-- Claim C6, amended: the per-airline group-mean sequence is ordered by
mean price descending; when two airlines share an identical mean they
appear in ascending airline-key order (the order the key-sorted groupby
output leaves on ties), not in first-encountered order.  The sequence is
a permutation of the groupby output. -/
theorem C6_airline_ranking_order (t : List FlightRecord) :
    (airline_avg_price t).Sorted priceDescKeyAsc ∧
    (airline_avg_price t).Perm
      (groupMean t (fun r => r.airline) fun r => r.price) ∧
    (airline_avg_price t).Sorted fun x y => y.2 ≤ x.2 := by
  have hs : (airline_avg_price t).Sorted priceDescKeyAsc :=
    List.sorted_insertionSort _ _
  refine ⟨hs, List.perm_insertionSort _ _, List.Pairwise.imp ?_ hs⟩
  intro x y h
  rcases h with h | ⟨he, _⟩
  · exact le_of_lt h
  · exact le_of_eq he.symm

/-- Claim C7: the price-trend-by-days-left sequence is keyed by the
distinct days-left values of the input, in strictly ascending numeric
order. -/
theorem C7_days_left_keys_ascending (t : List FlightRecord) :
    ((price_vs_days t).map Prod.fst).Sorted (· < ·) ∧
    ∀ d : ℤ, d ∈ (price_vs_days t).map Prod.fst ↔
      d ∈ t.map fun r => r.daysLeft := by
  have hkeys : (price_vs_days t).map Prod.fst =
      List.insertionSort (· ≤ ·)
        (uniqueFirst (t.map fun r => r.daysLeft)) := by
    simp only [price_vs_days, groupMean]
    exact map_fst_pair _ _
  constructor
  · rw [hkeys]
    exact (List.sorted_insertionSort _ _).lt_of_le
      (((List.perm_insertionSort _ _).nodup_iff).mpr (nodup_uniqueFirst _))
  · intro d
    rw [hkeys, (List.perm_insertionSort _ _).mem_iff, mem_uniqueFirst]

/-- Claim C8, counterexample: on the three-row table with prices 5000,
5001, 5001 the displayed mean price (format `.2f`, two decimal places)
differs from the one-decimal rounding the claim asserts. -/
theorem C8_counterexample :
    (displayedKPIs thirdT).1 ≠ roundTo 1 (avg_price thirdT) := by
  norm_num [displayedKPIs, roundTo, avg_price, meanQ, thirdT, mkRow,
    round_eq]

/-- Claim C8, amended: the displayed mean price and mean duration are
rounded to two decimal places (they lie on the hundredths grid, within
half a hundredth of the true mean), the displayed row count is the exact
input length, and the computed price range is the exact difference of a
maximal and a minimal price of the table. -/
theorem C8_displayed_metrics (t : List FlightRecord) (ht : t ≠ []) :
    (∃ n : ℤ, (displayedKPIs t).1 = (n : ℚ) / 100) ∧
    |(displayedKPIs t).1 - avg_price t| ≤ 1 / 200 ∧
    (∃ n : ℤ, (displayedKPIs t).2.1 = (n : ℚ) / 100) ∧
    |(displayedKPIs t).2.1 - avg_duration t| ≤ 1 / 200 ∧
    (displayedKPIs t).2.2.1 = t.length ∧
    ∃ rmax ∈ t, ∃ rmin ∈ t,
      price_range t = rmax.price - rmin.price ∧
      ∀ r ∈ t, rmin.price ≤ r.price ∧ r.price ≤ rmax.price := by
  refine ⟨⟨round (avg_price t * 10 ^ 2), ?_⟩, roundTo_two_close _,
    ⟨round (avg_duration t * 10 ^ 2), ?_⟩, roundTo_two_close _, rfl, ?_⟩
  · show roundTo 2 (avg_price t) = _
    rw [roundTo]; norm_num
  · show roundTo 2 (avg_duration t) = _
    rw [roundTo]; norm_num
  · have hne : t.map (fun r => r.price) ≠ [] := by
      cases t with
      | nil => exact absurd rfl ht
      | cons x xs => simp
    obtain ⟨hmx, hbx⟩ := listMax_spec hne
    obtain ⟨hmn, hbn⟩ := listMin_spec hne
    obtain ⟨rmax, hrmax, hpmax⟩ := List.mem_map.mp hmx
    obtain ⟨rmin, hrmin, hpmin⟩ := List.mem_map.mp hmn
    refine ⟨rmax, hrmax, rmin, hrmin, ?_, fun r hr => ⟨?_, ?_⟩⟩
    · rw [price_range, ← hpmax, ← hpmin]
    · rw [hpmin]; exact hbn _ (List.mem_map_of_mem _ hr)
    · rw [hpmax]; exact hbx _ (List.mem_map_of_mem _ hr)

theorem C8_witness :
    thirdT ≠ [] ∧
    ((∃ n : ℤ, (displayedKPIs thirdT).1 = (n : ℚ) / 100) ∧
    |(displayedKPIs thirdT).1 - avg_price thirdT| ≤ 1 / 200 ∧
    (∃ n : ℤ, (displayedKPIs thirdT).2.1 = (n : ℚ) / 100) ∧
    |(displayedKPIs thirdT).2.1 - avg_duration thirdT| ≤ 1 / 200 ∧
    (displayedKPIs thirdT).2.2.1 = thirdT.length ∧
    ∃ rmax ∈ thirdT, ∃ rmin ∈ thirdT,
      price_range thirdT = rmax.price - rmin.price ∧
      ∀ r ∈ thirdT, rmin.price ≤ r.price ∧ r.price ≤ rmax.price) :=
  ⟨by decide, C8_displayed_metrics thirdT (by decide)⟩

/-- Claim C9: evaluation of the loader on a one-row CSV whose `price`
entry is the non-numeric string "abc" and whose `index` and `flight`
columns are present.  The loaded frame still has the Index and Flight
columns (line 22 discards the drop's result) and still has the invalid
row with its non-numeric price (the coercion loop of lines 28-30 tests
lower-case names against Title-cased columns, so no coercion, and hence
no NaN and no row drop, happens), contradicting the code's own comments
on lines 21 and 27. -/
theorem C9_loader_keeps_columns_and_invalid_row :
    load_data rawCSV =
      { cols := ["Index", "Flight", "Price"],
        rows := [[Cell.num 0, Cell.str ("AB123"), Cell.str ("abc")]] } := by
  decide

/-- Claim C10: with every categorical selection equal to the full set of
distinct values of its column — the default state `create_filter`
returns — the filter passes every row through, returning the table
unchanged and in the same order. -/
theorem C10_default_selections_identity (t : List FlightRecord) :
    df_filtered t (create_filter t fun r => r.airline)
      (create_filter t fun r => r.sourceCity)
      (create_filter t fun r => r.destinationCity)
      (create_filter t fun r => r.cls)
      (create_filter t fun r => r.stops) = t := by
  have hmem : ∀ (f : FlightRecord → ℕ) (r : FlightRecord), r ∈ t →
      f r ∈ create_filter t f := by
    intro f r hr
    rw [create_filter, (List.perm_insertionSort _ _).mem_iff,
      mem_uniqueFirst]
    exact List.mem_map_of_mem f hr
  simp only [df_filtered]
  rw [List.filter_eq_self]
  intro r hr
  simp only [Bool.and_eq_true, decide_eq_true_eq]
  exact ⟨⟨⟨⟨hmem _ r hr, hmem _ r hr⟩, hmem _ r hr⟩, hmem _ r hr⟩,
    hmem _ r hr⟩
